import Mathlib

/-!
Shallow embedding of the concurrent aggregation and enrichment pipeline of the
`daily` CLI (Go).  The embedding covers:

* the data model of `internal/output/formatter.go` and
  `internal/provider/github/github.go` (TodoItem, ReviewItem, CIStatus,
  PRDetails, CheckRun, Activity);
* `enrichPRWithDetails` and `enrichPRsConcurrently` from `cmd/reviews.go`
  (network calls are modelled as oracle inputs; the nondeterministic
  completion order of the worker pool is modelled as an explicit list of
  result indices);
* `Aggregator.GetSummary` from `internal/provider/provider.go`;
* `Provider.GetActivities` and `Provider.calculateOverallCIState` from
  `internal/provider/github/github.go`;
* a small-step operational model of the worker pool used to state the
  concurrency bound.

Go's `time.Time` is modelled as a natural number of nanoseconds since the
epoch; Go errors are modelled as strings.
-/

namespace Daily

/-- Go errors carried by the enrichment calls, modelled by their message. -/
abbrev Err := String

/-- Go `time.Time`, modelled as nanoseconds since the epoch (UTC). -/
abbrev Time := Nat

/-- CheckRun from `internal/output/formatter.go` (same fields as
`github.CheckRun`, which `convertCheckRuns` copies field by field). -/
structure CheckRun where
  name : String
  status : String
  conclusion : String
  url : String
deriving DecidableEq, Repr

/-- CIStatus from `internal/output/formatter.go` / `github.CIStatus`. -/
structure CIStatus where
  state : String
  totalCount : Int
  checks : List CheckRun
deriving DecidableEq, Repr

/-- Go zero value of `CIStatus`, the value an unenriched `ReviewItem` field holds. -/
instance : Inhabited CIStatus := ⟨⟨"", 0, []⟩⟩

/-- PRDetails from `internal/output/formatter.go` / `github.PRDetails`. -/
structure PRDetails where
  additions : Int
  deletions : Int
  changedFiles : Int
deriving DecidableEq, Repr

/-- Go zero value of `PRDetails`. -/
instance : Inhabited PRDetails := ⟨⟨0, 0, 0⟩⟩

/-- TodoItem from `internal/output/formatter.go`. -/
structure TodoItem where
  id : String
  title : String
  description : String
  url : String
  updatedAt : Time
  tags : List String
deriving DecidableEq, Repr

instance : Inhabited TodoItem := ⟨⟨"", "", "", "", 0, []⟩⟩

/-- TodoItem from `internal/provider/github/github.go`: the output TodoItem
fields plus the PR number and repository full name. -/
structure GTodoItem where
  id : String
  title : String
  description : String
  url : String
  updatedAt : Time
  tags : List String
  number : Int
  repository : String
deriving DecidableEq, Repr

/-- ReviewItem from `internal/output/formatter.go`: a PR awaiting review with
optional enrichment substructures. -/
structure ReviewItem where
  todoItem : TodoItem
  ciStatus : CIStatus
  prDetails : PRDetails
deriving DecidableEq, Repr

instance : Inhabited ReviewItem := ⟨⟨default, default, default⟩⟩

/-- The `output.TodoItem` literal built from a `github.TodoItem` in
`cmd/reviews.go` (both in `enrichPRWithDetails` and in the fallback branch of
`enrichPRsConcurrently`). -/
def toTodoItem (pr : GTodoItem) : TodoItem :=
  { id := pr.id
    title := pr.title
    description := pr.description
    url := pr.url
    updatedAt := pr.updatedAt
    tags := pr.tags }

/-- convertCheckRuns from `cmd/reviews.go`: field-by-field conversion of
`github.CheckRun` values to `output.CheckRun` values. -/
def convertCheckRuns (githubChecks : List CheckRun) : List CheckRun :=
  githubChecks.map (fun check =>
    { name := check.name
      status := check.status
      conclusion := check.conclusion
      url := check.url })

/-- The `output.CIStatus` literal built from a `github.CIStatus` in
`enrichPRWithDetails`. -/
def convertCIStatus (ciStatus : CIStatus) : CIStatus :=
  { state := ciStatus.state
    totalCount := ciStatus.totalCount
    checks := convertCheckRuns ciStatus.checks }

/-- The `output.PRDetails` literal built from a `github.PRDetails` in
`enrichPRWithDetails`. -/
def convertPRDetails (prDetails : PRDetails) : PRDetails :=
  { additions := prDetails.additions
    deletions := prDetails.deletions
    changedFiles := prDetails.changedFiles }

/-- enrichPRWithDetails from `cmd/reviews.go`.  The two network calls
`provider.GetPRCIStatus` and `provider.GetPRDetails` are modelled by their
outcomes `ciRes` and `detRes`, supplied as inputs.  The function populates
each substructure exactly when the corresponding call succeeded and returns
the first error encountered (the CI-status error before the PR-details
error), mirroring the `err` / `err2` handling of the source. -/
def enrichPRWithDetails (pr : GTodoItem)
    (ciRes : Except Err CIStatus) (detRes : Except Err PRDetails) :
    ReviewItem × Option Err :=
  let reviewItem : ReviewItem :=
    { todoItem := toTodoItem pr, ciStatus := default, prDetails := default }
  let reviewItem := match ciRes with
    | .ok ciStatus => { reviewItem with ciStatus := convertCIStatus ciStatus }
    | .error _ => reviewItem
  let reviewItem := match detRes with
    | .ok prDetails => { reviewItem with prDetails := convertPRDetails prDetails }
    | .error _ => reviewItem
  match ciRes with
  | .error e => (reviewItem, some e)
  | .ok _ =>
    match detRes with
    | .error e2 => (reviewItem, some e2)
    | .ok _ => (reviewItem, none)

/-- The fallback `output.ReviewItem` a worker builds in
`enrichPRsConcurrently` when `enrichPRWithDetails` returned an error: only
the unenriched `TodoItem` fields, zero values elsewhere. -/
def fallbackItem (pr : GTodoItem) : ReviewItem :=
  { todoItem := toTodoItem pr, ciStatus := default, prDetails := default }

/-- Body of the worker loop of `enrichPRsConcurrently` for one job: call
`enrichPRWithDetails`; on error replace the item with the unenriched
fallback.  Returns the `prResult` pair (review item, recorded error). -/
def processJob (pr : GTodoItem)
    (ciRes : Except Err CIStatus) (detRes : Except Err PRDetails) :
    ReviewItem × Option Err :=
  let r := enrichPRWithDetails pr ciRes detRes
  match r.2 with
  | some e => (fallbackItem pr, some e)
  | none => (r.1, none)

/-- Outcomes of the two detail calls for each job index: the network
environment of one call to `enrichPRsConcurrently`. -/
abbrev Oracle := Nat → Except Err CIStatus × Except Err PRDetails

/-- The review item the worker assigned job `i` sends on the `results`
channel (out-of-range indices, which the pool never produces, give the zero
value). -/
def resultFor (prs : List GTodoItem) (oracle : Oracle) (i : Nat) : ReviewItem :=
  match prs.get? i with
  | some pr => (processJob pr (oracle i).1 (oracle i).2).1
  | none => default

/-- The result-collection loop of `enrichPRsConcurrently`: `reviewItems` is
pre-sized to `n` (Go zero values) and each received result is written at its
own index; `order` is the order in which results arrive. -/
def collectResults (n : Nat) (res : Nat → ReviewItem) (order : List Nat) :
    List ReviewItem :=
  order.foldl (fun acc i => acc.set i (res i)) (List.replicate n default)

/-- maxWorkers constant of `enrichPRsConcurrently`. -/
def maxWorkers : Nat := 5

/-- Observable outcome of one call to `enrichPRsConcurrently`: the returned
slice, how many worker goroutines were started, and whether the rate-limit
ticker was created.  Mirrors the control flow of `cmd/reviews.go`: the empty
input returns `make([]output.ReviewItem, 0)` (the non-nil empty slice,
embedded as `[]`) before the ticker or any worker is created; otherwise the
ticker starts, `min maxWorkers (len prs)` workers start, and the collection
loop assembles the output by index. -/
structure PoolRun where
  items : List ReviewItem
  workersStarted : Nat
  tickerStarted : Bool
deriving DecidableEq, Repr

/-- enrichPRsConcurrently from `cmd/reviews.go`, as a function of the input
list, the network oracle, and the order in which the `results` channel
delivers the per-index results (any permutation of the job indices). -/
def enrichPRsConcurrently (prs : List GTodoItem) (oracle : Oracle)
    (order : List Nat) : PoolRun :=
  if prs.length = 0 then
    { items := [], workersStarted := 0, tickerStarted := false }
  else
    { items := collectResults prs.length (resultFor prs oracle) order
      workersStarted := min maxWorkers prs.length
      tickerStarted := true }

/-! Activity data model and the provider aggregator
(`internal/activity/activity.go`, `internal/provider/provider.go`). -/

/-- ActivityType from `internal/activity/activity.go` (a Go string type). -/
abbrev ActivityType := String

/-- Activity from `internal/activity/activity.go`. -/
structure Activity where
  id : String
  type : ActivityType
  title : String
  description : String
  url : String
  platform : String
  timestamp : Time
  tags : List String
deriving DecidableEq, Repr

/-- Summary from `internal/activity/activity.go`. -/
structure Summary where
  date : Time
  activities : List Activity
deriving DecidableEq, Repr

/-- Nanoseconds in 24 hours, the width of the day window of `GetSummary`. -/
def nsPerDay : Nat := 86400000000000

/-- Midnight of the day containing `t`: the
`time.Date(date.Year(), date.Month(), date.Day(), 0, 0, 0, 0, ...)`
computation of `GetSummary`, on the nanosecond timeline. -/
def startOfDay (t : Time) : Time := t - t % nsPerDay

/-- Model of one registered `provider.Provider`: its `IsConfigured()` answer
and the outcome of `GetActivities` for a given window. -/
structure ProviderM where
  isConfigured : Bool
  getActivities : Time → Time → Except Err (List Activity)

/-- Aggregator.GetSummary from `internal/provider/provider.go`: for each
provider in registration order, skip it when unconfigured, skip it when its
`GetActivities` call fails, and otherwise append its activities; always
return a non-error `Summary`. -/
def GetSummary (providers : List ProviderM) (date : Time) :
    Except Err Summary :=
  let f := startOfDay date
  let t := f + nsPerDay
  let allActivities := providers.foldl (fun acc p =>
    if p.isConfigured then
      match p.getActivities f t with
      | .error _ => acc
      | .ok activities => acc ++ activities
    else acc) []
  .ok { date := date, activities := allActivities }

/-- Follows the spec's words for claim C5: the contribution of one provider
to the summary is its activity list when it is configured and succeeds, and
nothing otherwise. -/
def providerContribution (f t : Time) (p : ProviderM) : List Activity :=
  if p.isConfigured then
    match p.getActivities f t with
    | .error _ => []
    | .ok activities => activities
  else []

/-! The GitHub provider (`internal/provider/github/github.go`). -/

/-- The `provider.Config` fields the GitHub provider reads. -/
structure GitHubConfig where
  enabled : Bool
  token : String
  username : String
deriving DecidableEq, Repr

/-- Model of `github.Provider`: its configuration plus the outcomes of the
two searches `getCommits` and `getPullRequests` for a given window. -/
structure GitHubProvider where
  config : GitHubConfig
  commitsResult : Time → Time → Except Err (List Activity)
  prsResult : Time → Time → Except Err (List Activity)

/-- Provider.IsConfigured from `internal/provider/github/github.go`:
enabled with a non-empty token and username. -/
def GitHubProvider.IsConfigured (p : GitHubProvider) : Bool :=
  p.config.enabled && p.config.token != "" && p.config.username != ""

/-- Provider.GetActivities from `internal/provider/github/github.go`:
error when the provider is not configured; otherwise append the commit
search results when that search succeeded, then the pull-request search
results when that search succeeded, swallowing either error, and return
a nil error. -/
def GitHubProvider.GetActivities (p : GitHubProvider) (f t : Time) :
    Except Err (List Activity) :=
  if p.IsConfigured then
    let activities : List Activity := []
    let activities := match p.commitsResult f t with
      | .error _ => activities
      | .ok commits => activities ++ commits
    let activities := match p.prsResult f t with
      | .error _ => activities
      | .ok pullRequests => activities ++ pullRequests
    .ok activities
  else .error "GitHub provider not configured"

/-- Activities a search outcome contributes: its list on success, nothing on
failure. -/
def searchContribution (r : Except Err (List Activity)) : List Activity :=
  match r with
  | .error _ => []
  | .ok activities => activities

/-! calculateOverallCIState (`internal/provider/github/github.go`). -/

/-- Loop body of `calculateOverallCIState`: the accumulator is the pair
`(hasFailure, hasPending)` of the source. -/
def ciFlagsStep (acc : Bool × Bool) (check : CheckRun) : Bool × Bool :=
  if check.status == "in_progress" || check.status == "queued" then
    (acc.1, true)
  else if check.status == "completed" then
    if check.conclusion == "failure" || check.conclusion == "cancelled" then
      (true, acc.2)
    else acc
  else acc

/-- Provider.calculateOverallCIState from
`internal/provider/github/github.go`: empty check list gives the empty
state; otherwise one pass records whether any check is pending
(status `in_progress` or `queued`) and whether any completed check concluded
`failure` or `cancelled`, and failure takes precedence over pending over
success.  The anonymous check-run struct of the source has the same fields
as `CheckRun`. -/
def calculateOverallCIState (checks : List CheckRun) : String :=
  if checks.length = 0 then ""
  else
    let flags := checks.foldl ciFlagsStep (false, false)
    if flags.1 then "failure"
    else if flags.2 then "pending"
    else "success"

/-- One check that makes the overall state a failure: completed with
conclusion `failure` or `cancelled`. -/
def failedCheck (check : CheckRun) : Bool :=
  check.status == "completed" &&
    (check.conclusion == "failure" || check.conclusion == "cancelled")

/-- One check that makes the overall state pending: status `in_progress` or
`queued`. -/
def pendingCheck (check : CheckRun) : Bool :=
  check.status == "in_progress" || check.status == "queued"

/-! Small-step model of the worker pool of `enrichPRsConcurrently`, used for
the concurrency bound.  A state records the jobs still in the `jobs` channel
and, for each started worker goroutine, the job whose detail fetch it
currently has in flight (`none` when the worker is between jobs: waiting on
the channel or on the ticker).  Each worker runs a sequential loop, so it
has at most one fetch in flight; the pool starts `min maxWorkers N`
workers. -/

/-- State of the worker pool: undispatched job indices and per-worker
in-flight job. -/
structure PoolState where
  pending : List Nat
  workers : List (Option Nat)
deriving DecidableEq, Repr

/-- Initial pool state for `n` jobs: all job indices queued, `min maxWorkers n`
workers started, all idle. -/
def initState (n : Nat) : PoolState :=
  { pending := List.range n, workers := List.replicate (min maxWorkers n) none }

/-- Number of detail-fetch operations currently in flight. -/
def inFlight (s : PoolState) : Nat :=
  s.workers.countP Option.isSome

/-- One scheduler step of the pool: an idle worker takes the next queued job
and starts its detail fetch, or a busy worker's fetch completes. -/
inductive PoolStep : PoolState → PoolState → Prop
  | start (s : PoolState) (w : Nat) (hw : w < s.workers.length)
      (hidle : s.workers.get ⟨w, hw⟩ = none) (j : Nat) (rest : List Nat)
      (hp : s.pending = j :: rest) :
      PoolStep s { pending := rest, workers := s.workers.set w (some j) }
  | finish (s : PoolState) (w : Nat) (hw : w < s.workers.length) (j : Nat)
      (hbusy : s.workers.get ⟨w, hw⟩ = some j) :
      PoolStep s { s with workers := s.workers.set w none }

/-- States the pool can reach from a given state, under any interleaving. -/
inductive Reachable (init : PoolState) : PoolState → Prop
  | refl : Reachable init init
  | tail {s t : PoolState} : Reachable init s → PoolStep s t → Reachable init t

/-- Whether an `Except` value is an error (a failing Go call). -/
def isErr {α : Type} (r : Except Err α) : Bool :=
  match r with
  | .error _ => true
  | .ok _ => false

/-! Sample concrete values, used by witnesses and counterexamples. -/

/-- A concrete review candidate. -/
def samplePR : GTodoItem :=
  { id := "github-review-1"
    title := "Fix build"
    description := "PR in acme/app by alice"
    url := "https://example.com/acme/app/pull/7"
    updatedAt := 1700000000000000000
    tags := ["review-requested"]
    number := 7
    repository := "acme/app" }

/-- A concrete successful CI status. -/
def sampleCI : CIStatus :=
  { state := "success"
    totalCount := 1
    checks := [{ name := "build", status := "completed",
                 conclusion := "success", url := "" }] }

/-- Concrete PR change statistics. -/
def sampleDetails : PRDetails :=
  { additions := 10, deletions := 2, changedFiles := 3 }

/-- A concrete activity. -/
def sampleActivity : Activity :=
  { id := "github-pr-acme/app-7"
    type := "pull_request"
    title := "Fix build"
    description := "PR in acme/app"
    url := "https://example.com/acme/app/pull/7"
    platform := "github"
    timestamp := 1700000000000000000
    tags := [] }

/-! Helper lemmas about the result-collection loop. -/

/-- Writing results by index never changes the length of the output slice. -/
theorem foldl_set_length (res : Nat → ReviewItem) (order : List Nat)
    (acc : List ReviewItem) :
    (order.foldl (fun a i => a.set i (res i)) acc).length = acc.length := by
  induction order generalizing acc with
  | nil => rfl
  | cons j rest ih => rw [List.foldl_cons, ih, List.length_set]

/-- A slot whose index never arrives keeps its previous value. -/
theorem foldl_set_getElem_of_not_mem (res : Nat → ReviewItem)
    (order : List Nat) (acc : List ReviewItem) (i : Nat) (h : i ∉ order) :
    (order.foldl (fun a k => a.set k (res k)) acc)[i]? = acc[i]? := by
  induction order generalizing acc with
  | nil => rfl
  | cons j rest ih =>
    rw [List.foldl_cons, ih _ (fun hm => h (List.mem_cons_of_mem j hm))]
    have hji : j ≠ i := by
      intro hj
      subst hj
      exact h (List.mem_cons_self j rest)
    exact List.getElem?_set_ne hji

/-- A slot whose index arrives at least once holds that index's result at the
end, whatever the arrival order. -/
theorem foldl_set_getElem_of_mem (res : Nat → ReviewItem) (order : List Nat)
    (acc : List ReviewItem) (i : Nat) (hmem : i ∈ order)
    (hlt : i < acc.length) :
    (order.foldl (fun a k => a.set k (res k)) acc)[i]? = some (res i) := by
  induction order generalizing acc with
  | nil => cases hmem
  | cons j rest ih =>
    rw [List.foldl_cons]
    by_cases hr : i ∈ rest
    · exact ih _ hr (by rw [List.length_set]; exact hlt)
    · have hij : i = j := by
        rcases List.mem_cons.mp hmem with h | h
        · exact h
        · exact absurd h hr
      subst hij
      rw [foldl_set_getElem_of_not_mem res rest _ i hr,
        List.getElem?_set_eq_of_lt _ hlt]

/-- The collection loop returns a slice of length `n`. -/
theorem collectResults_length (n : Nat) (res : Nat → ReviewItem)
    (order : List Nat) : (collectResults n res order).length = n := by
  unfold collectResults
  rw [foldl_set_length, List.length_replicate]

/-- When results arrive in any permutation of the job indices, slot `i` of
the collected slice holds job `i`'s result. -/
theorem collectResults_getElem (n : Nat) (res : Nat → ReviewItem)
    (order : List Nat) (i : Nat) (hperm : List.Perm order (List.range n))
    (hi : i < n) : (collectResults n res order)[i]? = some (res i) := by
  apply foldl_set_getElem_of_mem
  · exact (hperm.mem_iff).mpr (List.mem_range.mpr hi)
  · rw [List.length_replicate]; exact hi

/-- Slot `i` of the pool output is the result computed for input `i`. -/
theorem enrich_items_getElem (prs : List GTodoItem) (oracle : Oracle)
    (order : List Nat) (i : Nat)
    (hperm : List.Perm order (List.range prs.length)) (hi : i < prs.length) :
    (enrichPRsConcurrently prs oracle order).items[i]? =
      some (resultFor prs oracle i) := by
  unfold enrichPRsConcurrently
  rw [if_neg (by omega)]
  exact collectResults_getElem _ _ _ _ hperm hi

/-- The review item a worker emits keeps the candidate's identity fields,
both on success and on fallback. -/
theorem processJob_todoItem (pr : GTodoItem) (ciRes : Except Err CIStatus)
    (detRes : Except Err PRDetails) :
    (processJob pr ciRes detRes).1.todoItem = toTodoItem pr := by
  cases ciRes <;> cases detRes <;> rfl

/-- A worker whose job had any failing detail call emits the unenriched
fallback item. -/
theorem processJob_fallback (pr : GTodoItem) (ciRes : Except Err CIStatus)
    (detRes : Except Err PRDetails)
    (h : isErr ciRes = true ∨ isErr detRes = true) :
    (processJob pr ciRes detRes).1 = fallbackItem pr := by
  cases ciRes with
  | error e => cases detRes <;> rfl
  | ok ci =>
    cases detRes with
    | error e => rfl
    | ok d => simp [isErr] at h

/-- The recorded outcome of a job whose CI-status call failed is that first
error, whatever the PR-details call did. -/
theorem processJob_outcome_ci_error (pr : GTodoItem) (e : Err)
    (detRes : Except Err PRDetails) :
    (processJob pr (Except.error e) detRes).2 = some e := by
  cases detRes <;> rfl

/-- The recorded outcome of a job whose CI-status call succeeded and whose
PR-details call failed is the PR-details error. -/
theorem processJob_outcome_det_error (pr : GTodoItem) (ci : CIStatus)
    (e : Err) :
    (processJob pr (Except.ok ci) (Except.error e)).2 = some e := rfl

/-- C1: for every input list of N review candidates, every network outcome
and every completion order, `enrichPRsConcurrently` returns a list of
exactly N review items.  The embedding's return type, like the Go
signature `[]output.ReviewItem` (with no error component), cannot signal a
top-level error, and the oracle ranges over all outcomes, including
all-failing ones. -/
theorem enrichPRsConcurrently_length (prs : List GTodoItem)
    (oracle : Oracle) (order : List Nat) :
    (enrichPRsConcurrently prs oracle order).items.length = prs.length := by
  unfold enrichPRsConcurrently
  by_cases h : prs.length = 0
  · rw [if_pos h]
    exact h.symm
  · rw [if_neg h]
    exact collectResults_length _ _ _

/-- C2: for every completion order of the workers (any permutation of the
job indices), the i-th output of `enrichPRsConcurrently` is the item
computed for the i-th input candidate, and its identity fields (ID, Title,
Description, URL, UpdatedAt, Tags) equal those of input i; enrichment only
fills the `ciStatus` / `prDetails` substructures of the `ReviewItem`. -/
theorem enrichPRsConcurrently_preserves_identity (prs : List GTodoItem)
    (oracle : Oracle) (order : List Nat) (i : Nat)
    (hperm : List.Perm order (List.range prs.length)) (hi : i < prs.length) :
    ∃ r : ReviewItem,
      (enrichPRsConcurrently prs oracle order).items[i]? = some r ∧
      r = (processJob (prs.get ⟨i, hi⟩) (oracle i).1 (oracle i).2).1 ∧
      r.todoItem.id = (prs.get ⟨i, hi⟩).id ∧
      r.todoItem.title = (prs.get ⟨i, hi⟩).title ∧
      r.todoItem.description = (prs.get ⟨i, hi⟩).description ∧
      r.todoItem.url = (prs.get ⟨i, hi⟩).url ∧
      r.todoItem.updatedAt = (prs.get ⟨i, hi⟩).updatedAt ∧
      r.todoItem.tags = (prs.get ⟨i, hi⟩).tags := by
  refine ⟨resultFor prs oracle i,
    enrich_items_getElem prs oracle order i hperm hi, ?_⟩
  have hres : resultFor prs oracle i =
      (processJob (prs.get ⟨i, hi⟩) (oracle i).1 (oracle i).2).1 := by
    unfold resultFor
    rw [List.get?_eq_getElem?, List.getElem?_eq_getElem hi]
    rfl
  have hid := processJob_todoItem (prs.get ⟨i, hi⟩) (oracle i).1 (oracle i).2
  rw [hres, hid]
  exact ⟨rfl, rfl, rfl, rfl, rfl, rfl, rfl⟩

/-- Witness for C2 at a concrete one-candidate input with a failing oracle. -/
theorem enrichPRsConcurrently_preserves_identity_witness :
    ∃ r : ReviewItem,
      (enrichPRsConcurrently [samplePR]
          (fun _ => (Except.error "ci down", Except.error "api down"))
          [0]).items[0]? = some r ∧
      r = (processJob ([samplePR].get ⟨0, by decide⟩)
            ((fun (_ : Nat) =>
              ((Except.error "ci down" : Except Err CIStatus),
               (Except.error "api down" : Except Err PRDetails))) 0).1
            ((fun (_ : Nat) =>
              ((Except.error "ci down" : Except Err CIStatus),
               (Except.error "api down" : Except Err PRDetails))) 0).2).1 ∧
      r.todoItem.id = ([samplePR].get ⟨0, by decide⟩).id ∧
      r.todoItem.title = ([samplePR].get ⟨0, by decide⟩).title ∧
      r.todoItem.description = ([samplePR].get ⟨0, by decide⟩).description ∧
      r.todoItem.url = ([samplePR].get ⟨0, by decide⟩).url ∧
      r.todoItem.updatedAt = ([samplePR].get ⟨0, by decide⟩).updatedAt ∧
      r.todoItem.tags = ([samplePR].get ⟨0, by decide⟩).tags :=
  enrichPRsConcurrently_preserves_identity [samplePR]
    (fun _ => (Except.error "ci down", Except.error "api down"))
    [0] 0 (by decide) (by decide)

/-- C3 counterexample: one candidate whose CI-status call succeeds with
`sampleCI` while the PR-details call fails.  The pool's output item for that
candidate is the unenriched fallback, whose `ciStatus` is the zero value and
not the substructure the succeeding call produced — so the output item does
not carry the succeeding substructure, contrary to the claim. -/
theorem partialEnrichment_discarded_counterexample :
    (enrichPRsConcurrently [samplePR]
        (fun _ => (Except.ok sampleCI, Except.error "api down"))
        [0]).items[0]? = some (fallbackItem samplePR) ∧
    (fallbackItem samplePR).ciStatus ≠ convertCIStatus sampleCI := by
  exact ⟨rfl, by decide⟩

/-- C3 amended: when exactly one of the two detail calls succeeds,
`enrichPRWithDetails` itself returns an item carrying the succeeding
substructure together with the error, but the worker loop of
`enrichPRsConcurrently` discards that item and emits the unenriched
fallback, so at the pool level enrichment is all-or-nothing per item. -/
theorem partialEnrichment_amended (pr : GTodoItem) (ci : CIStatus)
    (d : PRDetails) (e1 e2 : Err) :
    ((enrichPRWithDetails pr (Except.ok ci) (Except.error e2)).1.ciStatus
        = convertCIStatus ci ∧
      (processJob pr (Except.ok ci) (Except.error e2)).1
        = fallbackItem pr) ∧
    ((enrichPRWithDetails pr (Except.error e1) (Except.ok d)).1.prDetails
        = convertPRDetails d ∧
      (processJob pr (Except.error e1) (Except.ok d)).1
        = fallbackItem pr) :=
  ⟨⟨rfl, rfl⟩, ⟨rfl, rfl⟩⟩

/-- C4: a candidate with a failing detail call still gets an output item at
its index, populated with the unenriched WorkItem fields; the recorded
outcome is the first error encountered (the CI-status error before the
PR-details error); and any other candidate's output item depends only on
its own network outcome, so it is unaffected. -/
theorem enrich_graceful_degradation (prs : List GTodoItem) (oracle : Oracle)
    (order : List Nat) (i : Nat)
    (hperm : List.Perm order (List.range prs.length)) (hi : i < prs.length)
    (hfail : isErr (oracle i).1 = true ∨ isErr (oracle i).2 = true) :
    (enrichPRsConcurrently prs oracle order).items[i]? =
      some (fallbackItem (prs.get ⟨i, hi⟩)) ∧
    (∀ e : Err, (oracle i).1 = Except.error e →
      (processJob (prs.get ⟨i, hi⟩) (oracle i).1 (oracle i).2).2 = some e) ∧
    (∀ (ci : CIStatus) (e : Err), (oracle i).1 = Except.ok ci →
      (oracle i).2 = Except.error e →
      (processJob (prs.get ⟨i, hi⟩) (oracle i).1 (oracle i).2).2 = some e) ∧
    (∀ (oracle2 : Oracle) (j : Nat), oracle2 j = oracle j →
      (enrichPRsConcurrently prs oracle2 order).items[j]? =
        (enrichPRsConcurrently prs oracle order).items[j]?) := by
  refine ⟨?_, ?_, ?_, ?_⟩
  · rw [enrich_items_getElem prs oracle order i hperm hi]
    have hres : resultFor prs oracle i =
        (processJob (prs.get ⟨i, hi⟩) (oracle i).1 (oracle i).2).1 := by
      unfold resultFor
      rw [List.get?_eq_getElem?, List.getElem?_eq_getElem hi]
      rfl
    rw [hres, processJob_fallback _ _ _ hfail]
  · intro e he
    rw [he]
    exact processJob_outcome_ci_error _ _ _
  · intro ci e hci hdet
    rw [hci, hdet]
    exact processJob_outcome_det_error _ _ _
  · intro oracle2 j hagree
    by_cases hj : j < prs.length
    · rw [enrich_items_getElem prs oracle order j hperm hj,
        enrich_items_getElem prs oracle2 order j hperm hj]
      unfold resultFor
      rw [hagree]
    · have hlen2 := enrichPRsConcurrently_length prs oracle2 order
      have hlen := enrichPRsConcurrently_length prs oracle order
      rw [List.getElem?_eq_none (by omega), List.getElem?_eq_none (by omega)]

/-- Witness for C4: one candidate whose CI-status call fails. -/
theorem enrich_graceful_degradation_witness :
    (enrichPRsConcurrently [samplePR]
        (fun _ => (Except.error "ci down", Except.ok sampleDetails))
        [0]).items[0]? =
      some (fallbackItem ([samplePR].get ⟨0, by decide⟩)) :=
  (enrich_graceful_degradation [samplePR]
    (fun _ => (Except.error "ci down", Except.ok sampleDetails))
    [0] 0 (by decide) (by decide) (Or.inl rfl)).1

/-- C6: the empty candidate list returns the empty slice immediately
(`make([]output.ReviewItem, 0)`, the non-nil empty slice, embedded as `[]`),
with no worker goroutine started and no rate-limit ticker created, for
every network oracle and completion order. -/
theorem enrichPRsConcurrently_empty (oracle : Oracle) (order : List Nat) :
    enrichPRsConcurrently [] oracle order =
      { items := [], workersStarted := 0, tickerStarted := false } := rfl

/-- The pool never changes how many workers it started: every reachable
state has exactly `min maxWorkers n` workers. -/
theorem reachable_workers_length (n : Nat) (s : PoolState)
    (h : Reachable (initState n) s) :
    s.workers.length = min maxWorkers n := by
  induction h with
  | refl => simp [initState]
  | tail hr hstep ih =>
    cases hstep with
    | start w hw hidle j rest hp => simpa [List.length_set] using ih
    | finish w hw j hbusy => simpa [List.length_set] using ih

/-- C7: in every interleaving of one call to `enrichPRsConcurrently` on N
candidates, at most `min 5 N` detail-fetch operations are in flight at
once: each of the `min maxWorkers N` started workers runs its jobs
sequentially. -/
theorem pool_concurrency_bound (n : Nat) (s : PoolState)
    (h : Reachable (initState n) s) :
    inFlight s ≤ min 5 n := by
  have hlen := reachable_workers_length n s h
  calc inFlight s ≤ s.workers.length := List.countP_le_length _
    _ = min 5 n := hlen

/-- Witness for C7 at the initial state of a three-candidate pool. -/
theorem pool_concurrency_bound_witness : inFlight (initState 3) ≤ min 5 3 :=
  pool_concurrency_bound 3 (initState 3) Reachable.refl

/-- The aggregation loop of `GetSummary` is the concatenation of the
per-provider contributions, in registration order. -/
theorem foldl_providerContribution (f t : Time) (providers : List ProviderM)
    (acc : List Activity) :
    providers.foldl (fun acc p =>
      if p.isConfigured then
        match p.getActivities f t with
        | .error _ => acc
        | .ok activities => acc ++ activities
      else acc) acc
    = acc ++ (providers.map (providerContribution f t)).flatten := by
  induction providers generalizing acc with
  | nil => simp
  | cons p rest ih =>
    rw [List.foldl_cons, ih, List.map_cons, List.flatten_cons]
    unfold providerContribution
    by_cases hc : p.isConfigured
    · rw [if_pos hc, if_pos hc]
      cases hga : p.getActivities f t with
      | error e => simp
      | ok activities => simp [List.append_assoc]
    · rw [if_neg hc, if_neg hc]
      simp

/-- C5: for every ordered provider list and every date, `GetSummary` returns
a nil error and a `Summary` whose activity list is the concatenation, in
registration order, of the contributions of the providers: an unconfigured
provider and a failing provider each contribute nothing, a succeeding
provider contributes its activity list in its own order. -/
theorem GetSummary_concatenation (providers : List ProviderM) (date : Time) :
    GetSummary providers date =
      Except.ok
        { date := date
          activities := (providers.map
            (providerContribution (startOfDay date)
              (startOfDay date + nsPerDay))).flatten } := by
  simp only [GetSummary]
  rw [foldl_providerContribution]
  rfl

/-- C9: for every time window, the configured GitHub provider's
`GetActivities` returns a nil error: a failing commit search or
pull-request search is swallowed and contributes no activities, and the
other search's results are still returned (the empty list when both
fail). -/
theorem github_getActivities_total (p : GitHubProvider) (f t : Time)
    (h : p.IsConfigured = true) :
    p.GetActivities f t =
      Except.ok (searchContribution (p.commitsResult f t) ++
        searchContribution (p.prsResult f t)) := by
  unfold GitHubProvider.GetActivities
  rw [if_pos h]
  cases hc : p.commitsResult f t <;> cases hpr : p.prsResult f t <;>
    simp [searchContribution, hc, hpr]

/-- Witness for C9: a configured provider whose commit search fails and
whose pull-request search returns one activity. -/
theorem github_getActivities_total_witness :
    GitHubProvider.GetActivities
      { config := { enabled := true, token := "tok", username := "alice" }
        commitsResult := fun _ _ => Except.error "commit search down"
        prsResult := fun _ _ => Except.ok [sampleActivity] }
      0 nsPerDay =
    Except.ok
      (searchContribution (Except.error "commit search down") ++
        searchContribution (Except.ok [sampleActivity])) :=
  github_getActivities_total
    { config := { enabled := true, token := "tok", username := "alice" }
      commitsResult := fun _ _ => Except.error "commit search down"
      prsResult := fun _ _ => Except.ok [sampleActivity] }
    0 nsPerDay (by decide)

/-- The flag-gathering pass of `calculateOverallCIState` computes whether
any check failed and whether any check is pending. -/
theorem foldl_ciFlagsStep (checks : List CheckRun) (a b : Bool) :
    checks.foldl ciFlagsStep (a, b) =
      (a || checks.any failedCheck, b || checks.any pendingCheck) := by
  induction checks generalizing a b with
  | nil => simp
  | cons c rest ih =>
    rw [List.foldl_cons]
    by_cases h1 : (c.status == "in_progress" || c.status == "queued") = true
    · have hcomp : (c.status == "completed") = false := by
        rcases (Bool.or_eq_true _ _).mp h1 with h | h
        · rw [eq_of_beq h]
          decide
        · rw [eq_of_beq h]
          decide
      simp [ciFlagsStep, h1, ih, List.any_cons, failedCheck, pendingCheck,
        hcomp, Bool.or_assoc]
    · by_cases h2 : (c.status == "completed") = true
      · by_cases h3 :
          (c.conclusion == "failure" || c.conclusion == "cancelled") = true
        · simp [ciFlagsStep, h1, h2, h3, ih, List.any_cons, failedCheck,
            pendingCheck, Bool.or_assoc]
        · simp [ciFlagsStep, h1, h2, h3, ih, List.any_cons, failedCheck,
            pendingCheck]
      · simp [ciFlagsStep, h1, h2, ih, List.any_cons, failedCheck,
          pendingCheck]

/-- List.any is invariant under permutation of the list. -/
theorem perm_any_eq {α : Type} (p : α → Bool) {l1 l2 : List α}
    (h : List.Perm l1 l2) : l1.any p = l2.any p := by
  induction h with
  | nil => rfl
  | cons x _ ih => simp [List.any_cons, ih]
  | swap x y l => simp [List.any_cons, Bool.or_left_comm]
  | trans _ _ ih1 ih2 => rw [ih1, ih2]

/-- C10: `calculateOverallCIState` returns the empty string exactly for the
empty check list; otherwise it returns failure when any completed check
concluded failure or cancelled, else pending when any check is in progress
or queued, else success — and the result is independent of the order of the
checks. -/
theorem calculateOverallCIState_spec (checks : List CheckRun) :
    (calculateOverallCIState checks =
      if checks.length = 0 then ""
      else if checks.any failedCheck then "failure"
      else if checks.any pendingCheck then "pending"
      else "success") ∧
    ∀ checks2 : List CheckRun, List.Perm checks checks2 →
      calculateOverallCIState checks = calculateOverallCIState checks2 := by
  have hchar : ∀ l : List CheckRun,
      calculateOverallCIState l =
        if l.length = 0 then ""
        else if l.any failedCheck then "failure"
        else if l.any pendingCheck then "pending"
        else "success" := by
    intro l
    unfold calculateOverallCIState
    by_cases h : l.length = 0
    · rw [if_pos h, if_pos h]
    · rw [if_neg h, if_neg h, foldl_ciFlagsStep]
      simp
  refine ⟨hchar checks, ?_⟩
  intro checks2 hperm
  rw [hchar checks, hchar checks2, hperm.length_eq,
    perm_any_eq failedCheck hperm, perm_any_eq pendingCheck hperm]

/-- Witness for C10: a failing and a pending check give failure in either
order. -/
theorem calculateOverallCIState_spec_witness :
    calculateOverallCIState
      [{ name := "build", status := "completed", conclusion := "failure",
         url := "" },
       { name := "test", status := "in_progress", conclusion := "",
         url := "" }] =
    calculateOverallCIState
      [{ name := "test", status := "in_progress", conclusion := "",
         url := "" },
       { name := "build", status := "completed", conclusion := "failure",
         url := "" }] :=
  (calculateOverallCIState_spec
    [{ name := "build", status := "completed", conclusion := "failure",
       url := "" },
     { name := "test", status := "in_progress", conclusion := "",
       url := "" }]).2
    [{ name := "test", status := "in_progress", conclusion := "",
       url := "" },
     { name := "build", status := "completed", conclusion := "failure",
       url := "" }] (by decide)

end Daily
